import Mathlib

/-!
Verification of the Lightsail instance resource handler
(internal/service/lightsail/instance.go): a shallow embedding of the
CRUD handlers, the name validator, the key-pair diff suppression, and
the asynchronous-operation wait loop, together with theorems settling
the specified properties.

Conventions of the embedding:
  - Go errors are values of `GoError`; a Go function returning `error`
    is embedded as a function returning `GoResult`, whose `panicked`
    constructor records a Go runtime panic (e.g. out-of-range indexing).
  - The vendor API client (`conn`) is replaced by explicit parameters
    holding the response each API call would produce, and the
    `waitOperation` helper by a function parameter `wait` from an
    operation id to an optional error.
  - `schema.ResourceData` is embedded as `ResourceData`: the tracked id
    plus the attribute bag; `d.Set`/`d.Get` become field updates/reads.
  - Timestamps are carried as their RFC3339 rendering; numeric response
    fields (cpu count, ram size) are carried opaquely and never
    computed with.
-/

namespace Lightsail

/-- An operation handle returned by a mutating Lightsail API call
(`lightsail.Operation`; only its `Id` is used by this file). -/
structure Op where
  id : String
deriving DecidableEq

/-- A Go `error` value as this file distinguishes them: an
`awserr.Error` carrying a code and message, any other error, or an
error built by `fmt.Errorf`. -/
inductive GoError where
  | aws (code msg : String)
  | other (msg : String)
  | fmt (msg : String)
deriving DecidableEq

/-- The string rendering of a Go error (`err.Error()`), as interpolated
by `%s`/`%w` in `fmt.Errorf`. An `awserr.Error` renders as
"code: message". -/
def GoError.msg : GoError → String
  | .aws code m => code ++ ": " ++ m
  | .other m => m
  | .fmt m => m

/-- Outcome of a Go function returning `(α, error)` style results:
success, a returned non-nil error, or a runtime panic. -/
inductive GoResult (α : Type) where
  | ok (a : α)
  | err (e : GoError)
  | panicked (msg : String)
deriving DecidableEq

/-- A tag set (Go `map[string]string` rendered as an association list;
a well-formed map has pairwise distinct keys). -/
abbrev Tags := List (String × String)

/-- Lookup of a key in a tag set (first matching entry). -/
def lookupTag (k : String) (ts : Tags) : Option String :=
  (ts.find? (fun p => p.1 == k)).map (fun p => p.2)

/-- Modelled from the spec: the tags package (not under src/) merges
handler-default tags with resource-specific tags, the resource-specific
entries taking precedence ("a tag set merged from handler-default tags
and resource-specific tags"). -/
def mergeTags (defaults specific : Tags) : Tags :=
  defaults.filter (fun p => (lookupTag p.1 specific).isNone) ++ specific

/-- Modelled from the spec: `RemoveDefaultConfig` (tags package, not
under src/) drops the entries that originate purely from the
handler-default configuration — "with defaults removed before the value
exposed to the caller". An entry is dropped when the default
configuration carries the same key with the same value. -/
def removeDefaultConfig (defaults ts : Tags) : Tags :=
  ts.filter (fun p => !(lookupTag p.1 defaults == some p.2))

/-- Embeds `lightsail.InstanceHardware` (the fields read by the handler).
`ramSizeInGb` is a float in the source, carried here opaquely. -/
structure Hardware where
  cpuCount : Int
  ramSizeInGb : Int
deriving DecidableEq

/-- Embeds `lightsail.ResourceLocation` (the field read by the handler). -/
structure Location where
  availabilityZone : String
deriving DecidableEq

/-- Embeds `lightsail.Instance`: the fields of the GetInstance response body
that `resourceInstanceRead` copies into the resource data. `createdAt`
is the RFC3339 rendering of the `CreatedAt` timestamp. -/
structure Instance where
  location : Location
  blueprintId : String
  bundleId : String
  sshKeyName : String
  name : String
  arn : String
  username : String
  createdAt : String
  hardware : Hardware
  ipv6Addresses : List String
  ipAddressType : String
  isStaticIp : Bool
  privateIpAddress : String
  publicIpAddress : String
  tags : Tags
deriving DecidableEq

/-- Result of the `conn.GetInstance` call as `resourceInstanceRead`
distinguishes it: an `awserr.Error`, some other error, a nil response,
or a response carrying an instance. -/
inductive GetInstanceResult where
  | awsErr (code msg : String)
  | otherErr (msg : String)
  | nilResp
  | ok (i : Instance)
deriving DecidableEq

/-- The attribute bag of the resource (`schema.ResourceData` minus the
id): one field per schema key the handlers read or write. -/
structure InstanceAttrs where
  name : String
  availability_zone : String
  blueprint_id : String
  bundle_id : String
  key_pair_name : String
  user_data : String
  arn : String
  username : String
  created_at : String
  cpu_count : Int
  ram_size : Int
  ip_address_type : String
  ipv6_address : String
  ipv6_addresses : List String
  is_static_ip : Bool
  private_ip_address : String
  public_ip_address : String
  tags : Tags
  tags_all : Tags
deriving DecidableEq

/-- Embeds `schema.ResourceData`: the tracked identifier (`d.Id()`, cleared by
`d.SetId("")`) together with the attribute bag. -/
structure ResourceData where
  id : String
  attrs : InstanceAttrs
deriving DecidableEq

/-- The block of `d.Set` calls of `resourceInstanceRead` on a non-nil
response: every attribute is overwritten from the response, except
`ipv6_address`, which is only written when the response's IPv6 address
list is non-empty (`if len(i.Ipv6Addresses) > 0`). `tags` is the
response tag set with the entries matching the handler-default
configuration removed; `tags_all` is the response tag set itself. -/
def setInstanceAttrs (defaultTags : Tags) (a : InstanceAttrs) (i : Instance) : InstanceAttrs :=
  let tags := i.tags
  { a with
    availability_zone := i.location.availabilityZone
    blueprint_id := i.blueprintId
    bundle_id := i.bundleId
    key_pair_name := i.sshKeyName
    name := i.name
    arn := i.arn
    username := i.username
    created_at := i.createdAt
    cpu_count := i.hardware.cpuCount
    ram_size := i.hardware.ramSizeInGb
    ipv6_address := match i.ipv6Addresses with
      | [] => a.ipv6_address
      | x :: _ => x
    ipv6_addresses := i.ipv6Addresses
    ip_address_type := i.ipAddressType
    is_static_ip := i.isStaticIp
    private_ip_address := i.privateIpAddress
    public_ip_address := i.publicIpAddress
    tags := removeDefaultConfig defaultTags tags
    tags_all := tags }

/-- Embeds `resourceInstanceRead`, parameterized by the handler-default tag
configuration and the result of the `conn.GetInstance` call for
`d.Id()`. A `NotFoundException` AWS error clears the id and returns
nil; any other error is returned unchanged; a nil response clears the
id and returns nil; otherwise every attribute is copied from the
response. -/
def resourceInstanceRead (defaultTags : Tags) (d : ResourceData)
    (resp : GetInstanceResult) : GoResult ResourceData :=
  match resp with
  | .awsErr code msg =>
    if code = "NotFoundException" then
      .ok { d with id := "" }
    else
      .err (.aws code msg)
  | .otherErr msg => .err (.other msg)
  | .nilResp => .ok { d with id := "" }
  | .ok i => .ok { d with attrs := setInstanceAttrs defaultTags d.attrs i }

/-- Embeds `resourceInstanceCreate`, parameterized by the result of the
`conn.CreateInstances` call (either an error or the returned operation
list), the `waitOperation` helper, and the result the follow-up
`conn.GetInstance` call would produce. Request construction from the
configuration is elided: it does not affect the handler's result. The
second component of the result is the list of operation ids the handler
waited on. An empty operation list yields an error; a wait failure is
only logged (the error is discarded) and the handler proceeds to the
follow-up read. `d.SetId(d.Get("name"))` runs before the wait. -/
def resourceInstanceCreate (defaultTags : Tags)
    (createResp : Except GoError (List Op)) (wait : String → Option GoError)
    (readResp : GetInstanceResult) (d : ResourceData) :
    GoResult ResourceData × List String :=
  match createResp with
  | .error e => (.err e, [])
  | .ok [] => (.err (.fmt "No operations found for CreateInstance request"), [])
  | .ok (op :: _) =>
    let d := { d with id := d.attrs.name }
    match wait op.id with
    | some _ => (resourceInstanceRead defaultTags d readResp, [op.id])
    | none => (resourceInstanceRead defaultTags d readResp, [op.id])

/-- Embeds `resourceInstanceDelete`, parameterized by the result of the
`conn.DeleteInstance` call and the `waitOperation` helper. The second
component of the result is the list of operation ids waited on. The
source indexes `resp.Operations[0]` with no length guard: a successful
response with an empty operation list panics at runtime. A wait
failure is wrapped with the instance identifier and returned. -/
def resourceInstanceDelete (deleteResp : Except GoError (List Op))
    (wait : String → Option GoError) (d : ResourceData) :
    GoResult Unit × List String :=
  match deleteResp with
  | .error e => (.err e, [])
  | .ok [] => (.panicked "runtime error: index out of range [0] with length 0", [])
  | .ok (op :: _) =>
    match wait op.id with
    | some e =>
      (.err (.fmt ("Error waiting for instance (" ++ d.id ++
        ") to become destroyed: " ++ e.msg)), [op.id])
    | none => (.ok (), [op.id])

/-- The `tags_all` phase of `resourceInstanceUpdate` followed by the
final read: when the tags changed, a failing `UpdateTags` call is
wrapped and returned; otherwise the handler returns the follow-up
read's result. `waited` threads through the operation ids already
waited on. -/
def resourceInstanceUpdateTagsPhase (defaultTags : Tags)
    (hasChangeTags : Bool) (updateTagsErr : Option GoError)
    (readResp : GetInstanceResult) (d : ResourceData) (waited : List String) :
    GoResult ResourceData × List String :=
  if hasChangeTags then
    match updateTagsErr with
    | some e =>
      (.err (.fmt ("error updating Lightsail Instance (" ++ d.id ++
        ") tags: " ++ e.msg)), waited)
    | none => (resourceInstanceRead defaultTags d readResp, waited)
  else
    (resourceInstanceRead defaultTags d readResp, waited)

/-- Embeds `resourceInstanceUpdate`, parameterized by whether
`ip_address_type` changed, the result of the `conn.SetIpAddressType`
call, the `waitOperation` helper, whether `tags_all` changed, the
result of `UpdateTags`, and the result the final read would produce.
The second component of the result is the list of operation ids waited
on. An empty operation list from SetIpAddressType yields an error
(whose message names CreateInstance, verbatim from the source); a wait
failure is returned as-is. -/
def resourceInstanceUpdate (defaultTags : Tags) (hasChangeIp : Bool)
    (setIpResp : Except GoError (List Op)) (wait : String → Option GoError)
    (hasChangeTags : Bool) (updateTagsErr : Option GoError)
    (readResp : GetInstanceResult) (d : ResourceData) :
    GoResult ResourceData × List String :=
  if hasChangeIp then
    match setIpResp with
    | .error e => (.err e, [])
    | .ok [] => (.err (.fmt "No operations found for CreateInstance request"), [])
    | .ok (op :: _) =>
      match wait op.id with
      | some e => (.err e, [op.id])
      | none =>
        resourceInstanceUpdateTagsPhase defaultTags hasChangeTags updateTagsErr
          readResp d [op.id]
  else
    resourceInstanceUpdateTagsPhase defaultTags hasChangeTags updateTagsErr
      readResp d []

/-- Modelled from the spec: the status of a pending asynchronous
operation as the wait loop classifies it — non-terminal ("created by
the submitting call, mutated only by the remote system"), terminal
success, or terminal failure carrying the vendor-reported reason. The
`waitOperation` helper itself lives outside src/. -/
inductive OpStatus where
  | started
  | succeeded
  | failed (reason : String)
deriving DecidableEq

/-- Modelled from the spec: the tagged result of the wait —
"a tagged result type communicates timeout vs failure vs success". -/
inductive WaitResult where
  | completed
  | vendorFailure (reason : String)
  | timedOut
deriving DecidableEq

/-- Modelled from the spec: `waitOperation` (wait.go, not under src/)
"repeatedly fetches the operation's current status from the vendor API
... until: status reaches a terminal-success state → returns success,
status reaches a terminal-failure state → returns failure carrying the
vendor-reported reason, a maximum wait duration elapses → returns a
timeout error distinct from failure". `statusAt t` is the status
observed by the poll at instant `t`; `fuel` is the number of polls the
maximum wait duration still allows after the current one. -/
def waitOperation (statusAt : Nat → OpStatus) : Nat → Nat → WaitResult
  | t, 0 =>
    match statusAt t with
    | .succeeded => .completed
    | .failed r => .vendorFailure r
    | .started => .timedOut
  | t, Nat.succ f =>
    match statusAt t with
    | .succeeded => .completed
    | .failed r => .vendorFailure r
    | .started => waitOperation statusAt (t + 1) f

/-- Whether a character is ASCII alphabetic, the rune class `[a-zA-Z]`. -/
def isAlphaChar (c : Char) : Bool :=
  (('a' ≤ c) && (c ≤ 'z')) || (('A' ≤ c) && (c ≤ 'Z'))

/-- The rune class of the name regex body, `[a-zA-Z0-9_\-.]`. -/
def inNameClass (c : Char) : Bool :=
  isAlphaChar c || (('0' ≤ c) && (c ≤ '9')) || c = '_' || c = '-' || c = '.'

/-- The negated rune class `[^._\-]`: any rune other than dot,
underscore, hyphen. -/
def notTrailSep (c : Char) : Bool :=
  !(c = '.' || c = '_' || c = '-')

/-- Embeds `validation.StringLenBetween(min, max)`: accepts when the byte
length of the string lies in `[min, max]` (Go `len` counts bytes). -/
def stringLenBetween (lo hi : Nat) (s : String) : Bool :=
  lo ≤ s.utf8ByteSize && s.utf8ByteSize ≤ hi

/-- Whether the regex `^[a-zA-Z]` matches the string (Go
`MatchString`: an unanchored search, but `^` pins the match to the
start; the first rune must be ASCII alphabetic). -/
def matchStartsAlpha (s : String) : Bool :=
  match s.data with
  | [] => false
  | c :: _ => isAlphaChar c

/-- Rune-list matcher for the suffix of `[a-zA-Z0-9_\-.]+[^._\-]`
after its first rune: all runes but the last must lie in the name
class; the last rune must avoid dot, underscore, hyphen. -/
def nameTailMatch : List Char → Bool
  | [] => false
  | [c] => notTrailSep c
  | c :: rest => inNameClass c && nameTailMatch rest

/-- Whether the regex `^[a-zA-Z0-9_\-.]+[^._\-]$` matches the whole
string: at least two runes, every rune before the last in the name
class, the last rune not dot, underscore or hyphen. (Go regexp: `+` is
forced to cover exactly the runes before the final one, since `$`
anchors the single-rune negated class at the end.) -/
def matchBodyThenNonSep (s : String) : Bool :=
  match s.data with
  | [] => false
  | [_] => false
  | c :: rest => inNameClass c && nameTailMatch rest

/-- The `name` attribute validator: `validation.All` of
`StringLenBetween(2, 255)`, `StringMatch(^[a-zA-Z])` and
`StringMatch(^[a-zA-Z0-9_\-.]+[^._\-]$)` — accepted iff every
component validator accepts. -/
def validateInstanceName (s : String) : Bool :=
  stringLenBetween 2 255 s && matchStartsAlpha s && matchBodyThenNonSep s

/-- The acceptance condition exactly as the claim states it: starts
alphabetic, consists only of the characters `[A-Za-z0-9_.-]`, does not
end with dot, underscore or hyphen, length between 2 and 255. -/
def claimedNameValid (s : String) : Bool :=
  matchStartsAlpha s && s.data.all inNameClass &&
    (match s.data.getLast? with
     | some c => notTrailSep c
     | none => false) &&
    stringLenBetween 2 255 s

/-- The amended acceptance condition: starts alphabetic, has at least
two characters, every character except the last lies in
`[A-Za-z0-9_.-]`, the last character is not dot, underscore or hyphen,
and the byte length lies between 2 and 255. (Only the last character's
constraint differs from the claim: the regex allows it to be any
character outside dot, underscore, hyphen.) -/
def amendedNameValid (s : String) : Bool :=
  matchStartsAlpha s && decide (2 ≤ s.data.length) &&
    s.data.dropLast.all inNameClass &&
    (match s.data.getLast? with
     | some c => notTrailSep c
     | none => false) &&
    stringLenBetween 2 255 s

/-- The `DiffSuppressFunc` of `key_pair_name`: reports the diff as
suppressed exactly when the stored value is "LightsailDefaultKeyPair"
and the configured value is empty. -/
def keyPairNameDiffSuppress (old new : String) : Bool :=
  if old == "LightsailDefaultKeyPair" && new == "" then
    true
  else
    false

/-- Whether a wait result is a vendor-reported terminal failure. -/
def WaitResult.isVendorFailure : WaitResult → Bool
  | .vendorFailure _ => true
  | _ => false

/-- A concrete attribute bag used by the witness theorems. -/
def sampleAttrs : InstanceAttrs :=
  { name := "test1"
    availability_zone := "us-east-1a"
    blueprint_id := "amazon_linux"
    bundle_id := "nano_1_0"
    key_pair_name := ""
    user_data := ""
    arn := ""
    username := ""
    created_at := ""
    cpu_count := 0
    ram_size := 0
    ip_address_type := "dualstack"
    ipv6_address := ""
    ipv6_addresses := []
    is_static_ip := false
    private_ip_address := ""
    public_ip_address := ""
    tags := []
    tags_all := [] }

/-- A concrete resource datum used by the witness theorems. -/
def sampleData : ResourceData :=
  { id := "test1", attrs := sampleAttrs }

/-- A concrete GetInstance response body used by the witness theorems;
its tag set is the merge of the default configuration
`[("env", "prod")]` with the resource-specific tag set
`[("team", "a")]`. -/
def sampleInstance : Instance :=
  { location := { availabilityZone := "us-east-1a" }
    blueprintId := "amazon_linux"
    bundleId := "nano_1_0"
    sshKeyName := ""
    name := "test1"
    arn := "arn:test"
    username := "ec2-user"
    createdAt := "2022-01-01T00:00:00Z"
    hardware := { cpuCount := 1, ramSizeInGb := 1 }
    ipv6Addresses := []
    ipAddressType := "dualstack"
    isStaticIp := false
    privateIpAddress := "10.0.0.1"
    publicIpAddress := "1.2.3.4"
    tags := mergeTags [("env", "prod")] [("team", "a")] }

/-! Helper lemmas. -/

/-- Unfolding lemma for `nameTailMatch`: a rune list matches the tail
pattern iff all runes but the last lie in the name class and the last
exists and avoids dot, underscore, hyphen. -/
theorem nameTailMatch_eq (l : List Char) :
    nameTailMatch l =
      (l.dropLast.all inNameClass &&
        (match l.getLast? with
         | some c => notTrailSep c
         | none => false)) := by
  induction l with
  | nil => rfl
  | cons a t ih =>
    cases t with
    | nil => rfl
    | cons b t2 =>
      rw [show nameTailMatch (a :: b :: t2) =
            (inNameClass a && nameTailMatch (b :: t2)) from rfl, ih]
      rw [List.dropLast_cons₂, List.all_cons, List.getLast?_cons_cons,
        Bool.and_assoc]

/-- Unfolding lemma for the full-string regex matcher in terms of
dropLast/getLast. -/
theorem matchBodyThenNonSep_eq (s : String) :
    matchBodyThenNonSep s =
      (decide (2 ≤ s.data.length) &&
        (s.data.dropLast.all inNameClass &&
          (match s.data.getLast? with
           | some c => notTrailSep c
           | none => false))) := by
  unfold matchBodyThenNonSep
  cases h : s.data with
  | nil => rfl
  | cons a t =>
    cases t with
    | nil => simp
    | cons b t2 =>
      show (inNameClass a && nameTailMatch (b :: t2)) = _
      rw [nameTailMatch_eq]
      rw [List.dropLast_cons₂, List.all_cons, List.getLast?_cons_cons]
      have hlen : (2 ≤ (a :: b :: t2).length) := by
        simp [List.length_cons]
      rw [decide_eq_true hlen, Bool.true_and, Bool.and_assoc]

/-- Lookup in a singleton-extended tag set. -/
theorem lookupTag_cons (k : String) (p : String × String) (l : Tags) :
    lookupTag k (p :: l) = if p.1 == k then some p.2 else lookupTag k l := by
  unfold lookupTag
  cases h : p.1 == k <;> simp [List.find?_cons, h]

/-- A key found on the left of an append is found in the append. -/
theorem lookupTag_append_some (k v : String) (l₁ l₂ : Tags)
    (h : lookupTag k l₁ = some v) : lookupTag k (l₁ ++ l₂) = some v := by
  induction l₁ with
  | nil => simp [lookupTag] at h
  | cons p t ih =>
    rw [List.cons_append, lookupTag_cons]
    rw [lookupTag_cons] at h
    cases hpk : p.1 == k <;> simp [hpk] at h ⊢
    · exact ih h
    · exact h

/-- A key absent on the left of an append is looked up on the right. -/
theorem lookupTag_append_none (k : String) (l₁ l₂ : Tags)
    (h : lookupTag k l₁ = none) : lookupTag k (l₁ ++ l₂) = lookupTag k l₂ := by
  induction l₁ with
  | nil => rfl
  | cons p t ih =>
    rw [List.cons_append, lookupTag_cons]
    rw [lookupTag_cons] at h
    cases hpk : p.1 == k <;> simp [hpk] at h ⊢
    exact ih h

/-- Filtering with a predicate that holds on every entry keyed `k`
preserves the lookup of `k`. -/
theorem lookupTag_filter_some (k v : String) (q : String × String → Bool)
    (l : Tags) (hq : ∀ p : String × String, p.1 = k → q p = true)
    (h : lookupTag k l = some v) : lookupTag k (l.filter q) = some v := by
  induction l with
  | nil => simp [lookupTag] at h
  | cons p t ih =>
    rw [lookupTag_cons] at h
    cases hpk : p.1 == k
    · simp [hpk] at h
      cases hqp : q p
      · have hf : List.filter q (p :: t) = List.filter q t := by
          simp [List.filter_cons, hqp]
        rw [hf]
        exact ih h
      · have hf : List.filter q (p :: t) = p :: List.filter q t := by
          simp [List.filter_cons, hqp]
        rw [hf, lookupTag_cons]
        simp [hpk]
        exact ih h
    · simp [hpk] at h
      have hqp : q p = true := hq p (by exact eq_of_beq hpk)
      have hf : List.filter q (p :: t) = p :: List.filter q t := by
        simp [List.filter_cons, hqp]
      rw [hf, lookupTag_cons]
      simp [hpk, h]

/-- Filtering out every entry keyed `k` makes the lookup of `k` fail. -/
theorem lookupTag_filter_none (k : String) (q : String × String → Bool)
    (l : Tags) (h : ∀ p ∈ l, p.1 = k → q p = false) :
    lookupTag k (l.filter q) = none := by
  induction l with
  | nil => rfl
  | cons p t ih =>
    have iht := ih (fun p2 hp2 => h p2 (List.mem_cons_of_mem _ hp2))
    cases hqp : q p
    · have hf : List.filter q (p :: t) = List.filter q t := by
        simp [List.filter_cons, hqp]
      rw [hf]
      exact iht
    · have hf : List.filter q (p :: t) = p :: List.filter q t := by
        simp [List.filter_cons, hqp]
      rw [hf, lookupTag_cons]
      cases hpk : p.1 == k
      · simp only [Bool.false_eq_true, if_false]
        exact iht
      · exact absurd hqp (by simp [h p (List.mem_cons_self p t) (eq_of_beq hpk)])

/-- A failing lookup means no entry carries the key. -/
theorem lookupTag_none_not_mem (k : String) (l : Tags)
    (h : lookupTag k l = none) : ∀ p ∈ l, p.1 ≠ k := by
  induction l with
  | nil => intro p hp; cases hp
  | cons q t ih =>
    rw [lookupTag_cons] at h
    intro p hp
    cases hqk : q.1 == k
    · simp [hqk] at h
      rcases List.mem_cons.1 hp with rfl | hp2
      · simpa using hqk
      · exact ih h p hp2
    · simp [hqk] at h

/-- With pairwise-distinct keys, every entry keyed `k` carries the
looked-up value. -/
theorem lookupTag_unique_of_nodup (k v : String) (l : Tags)
    (hnd : (l.map Prod.fst).Nodup) (h : lookupTag k l = some v) :
    ∀ p ∈ l, p.1 = k → p.2 = v := by
  induction l with
  | nil => intro p hp; cases hp
  | cons q t ih =>
    rw [List.map_cons, List.nodup_cons] at hnd
    rw [lookupTag_cons] at h
    intro p hp hpk
    cases hqk : q.1 == k
    · simp [hqk] at h
      rcases List.mem_cons.1 hp with rfl | hp2
      · exact absurd hpk (by simpa using hqk)
      · exact ih hnd.2 h p hp2 hpk
    · simp [hqk] at h
      rcases List.mem_cons.1 hp with rfl | hp2
      · exact h
      · have hkmem : k ∈ List.map Prod.fst t := by
          rw [← hpk]
          exact List.mem_map_of_mem Prod.fst hp2
        have hnotin : q.1 ∉ List.map Prod.fst t := hnd.1
        rw [eq_of_beq hqk] at hnotin
        exact absurd hkmem hnotin

/-- A key carried only by the default configuration survives the merge
with the value the defaults give it. -/
theorem lookupTag_mergeTags_default_only (k v : String) (dt rt : Tags)
    (hk : lookupTag k dt = some v) (hr : lookupTag k rt = none) :
    lookupTag k (mergeTags dt rt) = some v := by
  unfold mergeTags
  apply lookupTag_append_some
  apply lookupTag_filter_some k v _ dt _ hk
  intro p hpk
  rw [hpk, hr]
  rfl

/-- Removing the default-config entries from the merge erases a key
carried only by the default configuration. -/
theorem lookupTag_removeDefault_merge (k v : String) (dt rt : Tags)
    (hnd : (dt.map Prod.fst).Nodup)
    (hk : lookupTag k dt = some v) (hr : lookupTag k rt = none) :
    lookupTag k (removeDefaultConfig dt (mergeTags dt rt)) = none := by
  unfold removeDefaultConfig
  apply lookupTag_filter_none
  intro p hp hpk
  rcases List.mem_append.1 hp with hp1 | hp2
  · have hpdt : p ∈ dt := List.mem_of_mem_filter hp1
    have hpv : p.2 = v := lookupTag_unique_of_nodup k v dt hnd hk p hpdt hpk
    rw [hpk, hk, hpv]
    simp
  · exact absurd hpk (lookupTag_none_not_mem k rt hr p hp2)

/-- Overwriting the attribute bag from the same response twice is the
same as overwriting it once. -/
theorem setInstanceAttrs_idem (dt : Tags) (a : InstanceAttrs) (i : Instance) :
    setInstanceAttrs dt (setInstanceAttrs dt a i) i = setInstanceAttrs dt a i := by
  cases h : i.ipv6Addresses <;> simp [setInstanceAttrs, h]

/-! Claim theorems. -/

/-- C1: when the CreateInstances call succeeds with at least one
operation, a failing operation wait does not fail the create:
`resourceInstanceCreate` still proceeds to the follow-up read (on the
data with the id set to the configured name) and returns that read's
result, having waited on the first operation. -/
theorem create_wait_failure_only_logged (dt : Tags) (op : Op) (rest : List Op)
    (wait : String → Option GoError) (rr : GetInstanceResult)
    (d : ResourceData) (e : GoError) (hw : wait op.id = some e) :
    resourceInstanceCreate dt (.ok (op :: rest)) wait rr d =
      (resourceInstanceRead dt { d with id := d.attrs.name } rr, [op.id]) := by
  simp [resourceInstanceCreate, hw]

/-- Witness for C1 at concrete inputs: a failing wait, and the create
returning the follow-up read's result. -/
theorem create_wait_failure_only_logged_witness :
    (fun _ : String => some (GoError.other "wait failed")) "op-1" =
      some (GoError.other "wait failed") ∧
    resourceInstanceCreate [] (.ok [⟨"op-1"⟩])
        (fun _ => some (GoError.other "wait failed")) .nilResp sampleData =
      (resourceInstanceRead [] { sampleData with id := sampleData.attrs.name }
        .nilResp, ["op-1"]) :=
  ⟨rfl, create_wait_failure_only_logged [] ⟨"op-1"⟩ []
    (fun _ => some (GoError.other "wait failed")) .nilResp sampleData
    (GoError.other "wait failed") rfl⟩

/-- C2: when the DeleteInstance call succeeds, a failing operation
wait makes `resourceInstanceDelete` return a non-nil error wrapping
the wait error with the instance identifier; in particular the delete
never succeeds. -/
theorem delete_wait_failure_fails_delete (op : Op) (rest : List Op)
    (wait : String → Option GoError) (d : ResourceData) (e : GoError)
    (hw : wait op.id = some e) :
    resourceInstanceDelete (.ok (op :: rest)) wait d =
      (.err (.fmt ("Error waiting for instance (" ++ d.id ++
        ") to become destroyed: " ++ e.msg)), [op.id]) ∧
    (resourceInstanceDelete (.ok (op :: rest)) wait d).1 ≠ .ok () := by
  constructor
  · simp [resourceInstanceDelete, hw]
  · simp [resourceInstanceDelete, hw]

/-- Witness for C2 at concrete inputs. -/
theorem delete_wait_failure_fails_delete_witness :
    resourceInstanceDelete (.ok [⟨"op-2"⟩])
        (fun _ => some (GoError.other "wait failed")) sampleData =
      (.err (.fmt ("Error waiting for instance (" ++ sampleData.id ++
        ") to become destroyed: " ++ (GoError.other "wait failed").msg)),
       ["op-2"]) ∧
    (resourceInstanceDelete (.ok [⟨"op-2"⟩])
        (fun _ => some (GoError.other "wait failed")) sampleData).1 ≠ .ok () :=
  delete_wait_failure_fails_delete ⟨"op-2"⟩ []
    (fun _ => some (GoError.other "wait failed")) sampleData
    (GoError.other "wait failed") rfl

/-- C3: a `NotFoundException` on GetInstance makes the read clear the
tracked identifier and succeed; an AWS error with any other code, and
any non-AWS error, are returned to the caller unchanged. -/
theorem read_not_found_clears_id_other_errors_propagate
    (dt : Tags) (d : ResourceData) (code msg msg2 : String) :
    resourceInstanceRead dt d (.awsErr "NotFoundException" msg) =
      .ok { d with id := "" } ∧
    (code ≠ "NotFoundException" →
      resourceInstanceRead dt d (.awsErr code msg) = .err (.aws code msg)) ∧
    resourceInstanceRead dt d (.otherErr msg2) = .err (.other msg2) := by
  refine ⟨rfl, fun hc => ?_, rfl⟩
  simp [resourceInstanceRead, hc]

/-- Witness for C3 at concrete inputs, discharging the
non-not-found-code hypothesis at the code "AccessDenied". -/
theorem read_not_found_clears_id_other_errors_propagate_witness :
    resourceInstanceRead [] sampleData (.awsErr "NotFoundException" "m") =
      .ok { sampleData with id := "" } ∧
    resourceInstanceRead [] sampleData (.awsErr "AccessDenied" "m") =
      .err (.aws "AccessDenied" "m") ∧
    resourceInstanceRead [] sampleData (.otherErr "m2") =
      .err (.other "m2") :=
  ⟨(read_not_found_clears_id_other_errors_propagate [] sampleData
      "AccessDenied" "m" "m2").1,
   (read_not_found_clears_id_other_errors_propagate [] sampleData
      "AccessDenied" "m" "m2").2.1 (by decide),
   (read_not_found_clears_id_other_errors_propagate [] sampleData
      "AccessDenied" "m" "m2").2.2⟩

/-- C4: each mutating handler (create, delete, set-ip-address-type
update) whose API response carries one or more operations waits
exactly on the first operation of the list and never inspects any
later operation: its whole result is unchanged when the tail of the
operation list is dropped, and the list of waited operation ids is
exactly the first operation's id. -/
theorem mutating_handlers_wait_only_first_operation
    (dt : Tags) (op : Op) (rest : List Op) (wait : String → Option GoError)
    (rr : GetInstanceResult) (d : ResourceData)
    (hasChangeTags : Bool) (ute : Option GoError) :
    (resourceInstanceCreate dt (.ok (op :: rest)) wait rr d =
       resourceInstanceCreate dt (.ok [op]) wait rr d ∧
     (resourceInstanceCreate dt (.ok (op :: rest)) wait rr d).2 = [op.id]) ∧
    (resourceInstanceDelete (.ok (op :: rest)) wait d =
       resourceInstanceDelete (.ok [op]) wait d ∧
     (resourceInstanceDelete (.ok (op :: rest)) wait d).2 = [op.id]) ∧
    (resourceInstanceUpdate dt true (.ok (op :: rest)) wait hasChangeTags
        ute rr d =
       resourceInstanceUpdate dt true (.ok [op]) wait hasChangeTags
        ute rr d ∧
     (resourceInstanceUpdate dt true (.ok (op :: rest)) wait hasChangeTags
        ute rr d).2 = [op.id]) := by
  refine ⟨⟨rfl, ?_⟩, ⟨rfl, ?_⟩, rfl, ?_⟩
  · cases hw : wait op.id <;> simp [resourceInstanceCreate, hw]
  · cases hw : wait op.id <;> simp [resourceInstanceDelete, hw]
  · cases hw : wait op.id <;>
      cases hasChangeTags <;>
        cases ute <;>
          simp [resourceInstanceUpdate, resourceInstanceUpdateTagsPhase, hw]

/-- C9: the first-element access of `resp.Operations[0]` in the delete
path is unguarded: a successful DeleteInstance response carrying zero
operations makes `resourceInstanceDelete` panic (out-of-bounds index),
while the create and set-ip-address-type paths return a proper error
on an empty operation list. -/
theorem delete_unguarded_first_operation_access
    (dt : Tags) (wait : String → Option GoError) (rr : GetInstanceResult)
    (d : ResourceData) (hasChangeTags : Bool) (ute : Option GoError) :
    resourceInstanceDelete (.ok []) wait d =
      (.panicked "runtime error: index out of range [0] with length 0", []) ∧
    resourceInstanceCreate dt (.ok []) wait rr d =
      (.err (.fmt "No operations found for CreateInstance request"), []) ∧
    resourceInstanceUpdate dt true (.ok []) wait hasChangeTags ute rr d =
      (.err (.fmt "No operations found for CreateInstance request"), []) := by
  refine ⟨rfl, rfl, ?_⟩
  simp [resourceInstanceUpdate]

/-- C5 counterexample: the name "ab$" is accepted by the validator even
though it does not consist only of the characters
`A-Z a-z 0-9 _ . -` (its last character is a dollar sign): the claimed
acceptance condition does not hold as an iff. -/
theorem name_validation_last_char_counterexample :
    validateInstanceName "ab$" = true ∧ claimedNameValid "ab$" = false := by
  constructor <;> decide

/-- C5 amended: validation accepts a name iff it starts with an
alphabetic character, has at least two characters, every character
except the last is one of `A-Z a-z 0-9 _ . -`, the last character is
not a dot, underscore or hyphen, and the byte length is between 2 and
255 inclusive. (The regex constrains every character but the last to
the allowed set; the final character may be any character outside
dot, underscore, hyphen.) -/
theorem name_validation_accepts_iff_amended (s : String) :
    validateInstanceName s = true ↔ amendedNameValid s = true := by
  unfold validateInstanceName amendedNameValid
  rw [matchBodyThenNonSep_eq s]
  simp only [Bool.and_eq_true]
  tauto

/-- C6: on a read whose response carries the tag set merged from the
handler-default configuration and the resource-specific tags, a key
present only in the default configuration appears in `tags_all` but is
removed from `tags`. -/
theorem default_only_tag_in_tags_all_not_in_tags
    (dt rt : Tags) (hnd : (dt.map Prod.fst).Nodup) (k v : String)
    (hk : lookupTag k dt = some v) (hr : lookupTag k rt = none)
    (d : ResourceData) (i : Instance) (hi : i.tags = mergeTags dt rt) :
    ∃ d2, resourceInstanceRead dt d (.ok i) = .ok d2 ∧
      lookupTag k d2.attrs.tags_all = some v ∧
      lookupTag k d2.attrs.tags = none := by
  refine ⟨_, rfl, ?_, ?_⟩
  · have hta : (setInstanceAttrs dt d.attrs i).tags_all = i.tags := rfl
    show lookupTag k (setInstanceAttrs dt d.attrs i).tags_all = some v
    rw [hta, hi]
    exact lookupTag_mergeTags_default_only k v dt rt hk hr
  · have ht : (setInstanceAttrs dt d.attrs i).tags =
        removeDefaultConfig dt i.tags := rfl
    show lookupTag k (setInstanceAttrs dt d.attrs i).tags = none
    rw [ht, hi]
    exact lookupTag_removeDefault_merge k v dt rt hnd hk hr

/-- Witness for C6 at concrete inputs: default configuration
`[("env", "prod")]`, resource tags `[("team", "a")]`, key "env". -/
theorem default_only_tag_in_tags_all_not_in_tags_witness :
    ∃ d2, resourceInstanceRead [("env", "prod")] sampleData
        (.ok sampleInstance) = .ok d2 ∧
      lookupTag "env" d2.attrs.tags_all = some "prod" ∧
      lookupTag "env" d2.attrs.tags = none :=
  default_only_tag_in_tags_all_not_in_tags [("env", "prod")] [("team", "a")]
    (by decide) "env" "prod" (by decide) (by decide) sampleData
    sampleInstance rfl

/-- C7: an operation whose observed status stays non-terminal at every
poll the wait ceiling allows makes `waitOperation` return the timeout
result, which is not classified as a vendor-reported failure. -/
theorem wait_timeout_distinct_from_vendor_failure
    (statusAt : Nat → OpStatus) (t0 fuel : Nat)
    (h : ∀ k, k ≤ fuel → statusAt (t0 + k) = .started) :
    waitOperation statusAt t0 fuel = .timedOut ∧
    (waitOperation statusAt t0 fuel).isVendorFailure = false := by
  have hmain : waitOperation statusAt t0 fuel = .timedOut := by
    induction fuel generalizing t0 with
    | zero =>
      have h0 : statusAt t0 = .started := by
        simpa using h 0 (Nat.le_refl 0)
      simp [waitOperation, h0]
    | succ f ih =>
      have h0 : statusAt t0 = .started := by
        simpa using h 0 (Nat.zero_le _)
      have hrec : ∀ k, k ≤ f → statusAt (t0 + 1 + k) = .started := by
        intro k hk
        have hh := h (k + 1) (Nat.succ_le_succ hk)
        rw [Nat.add_assoc, Nat.add_comm 1 k]
        exact hh
      simp [waitOperation, h0]
      exact ih (t0 + 1) hrec
  exact ⟨hmain, by rw [hmain]; rfl⟩

/-- Witness for C7 at a concrete always-pending status stream and a
ceiling of two further polls. -/
theorem wait_timeout_distinct_from_vendor_failure_witness :
    waitOperation (fun _ => OpStatus.started) 0 2 = .timedOut ∧
    (waitOperation (fun _ => OpStatus.started) 0 2).isVendorFailure = false :=
  wait_timeout_distinct_from_vendor_failure (fun _ => OpStatus.started) 0 2
    (fun _ _ => rfl)

/-- C8: reading twice against the same GetInstance response with no
intervening mutation changes nothing: if the first read succeeds with
resulting data `d2`, a second read from `d2` succeeds with `d2`
again. -/
theorem read_idempotent (dt : Tags) (d : ResourceData)
    (r : GetInstanceResult) (d2 : ResourceData)
    (h : resourceInstanceRead dt d r = .ok d2) :
    resourceInstanceRead dt d2 r = .ok d2 := by
  cases r with
  | awsErr code msg =>
    simp only [resourceInstanceRead] at h ⊢
    by_cases hc : code = "NotFoundException"
    · rw [if_pos hc] at h ⊢
      injection h with hd
      subst hd
      rfl
    · rw [if_neg hc] at h
      exact GoResult.noConfusion h
  | otherErr msg =>
    simp only [resourceInstanceRead] at h
    exact GoResult.noConfusion h
  | nilResp =>
    simp only [resourceInstanceRead] at h ⊢
    injection h with hd
    subst hd
    rfl
  | ok i =>
    simp only [resourceInstanceRead] at h ⊢
    injection h with hd
    subst hd
    show GoResult.ok
        { d with attrs := setInstanceAttrs dt (setInstanceAttrs dt d.attrs i) i } =
      GoResult.ok { d with attrs := setInstanceAttrs dt d.attrs i }
    rw [setInstanceAttrs_idem]

/-- Witness for C8: two successive reads of the sample response yield
the same resulting data. -/
theorem read_idempotent_witness :
    resourceInstanceRead [("env", "prod")] sampleData (.ok sampleInstance) =
      .ok { sampleData with
        attrs := setInstanceAttrs [("env", "prod")] sampleData.attrs
          sampleInstance } ∧
    resourceInstanceRead [("env", "prod")]
        { sampleData with
          attrs := setInstanceAttrs [("env", "prod")] sampleData.attrs
            sampleInstance } (.ok sampleInstance) =
      .ok { sampleData with
        attrs := setInstanceAttrs [("env", "prod")] sampleData.attrs
          sampleInstance } :=
  ⟨rfl, read_idempotent [("env", "prod")] sampleData (.ok sampleInstance)
    { sampleData with
      attrs := setInstanceAttrs [("env", "prod")] sampleData.attrs
        sampleInstance } rfl⟩

/-- C10: the key-pair diff suppression reports a diff as suppressed
exactly when the stored value is "LightsailDefaultKeyPair" and the
configured value is empty; no other pair of values is suppressed. -/
theorem key_pair_name_diff_suppress_iff (old new : String) :
    keyPairNameDiffSuppress old new = true ↔
      (old = "LightsailDefaultKeyPair" ∧ new = "") := by
  have hb : keyPairNameDiffSuppress old new =
      (old == "LightsailDefaultKeyPair" && new == "") := by
    unfold keyPairNameDiffSuppress
    cases hc : (old == "LightsailDefaultKeyPair" && new == "") <;> simp [hc]
  rw [hb]
  simp [Bool.and_eq_true]

end Lightsail
